import Mathlib

/-!
Verification of the `finding-africa` attachment processor (`processor.py`)
against its natural-language specification.  The Python program is shallowly
embedded: pure fragments become Lean functions, the raising of a Python
exception is modelled by `Option`/result types, and the side-effecting
orchestration (mailbox intake, the per-file processing loop) becomes explicit
state passing.  All string manipulation is defined over explicit character
lists so that every definition is kernel-computable on concrete inputs.
-/

set_option maxRecDepth 10000

namespace FindingAfrica

/-! ## Character and string helpers mirroring the Python string operations -/

/-- Whitespace recognised by Python's `str.strip` (ASCII subset). -/
def isWs (c : Char) : Bool := c == ' ' || c == '\t' || c == '\n' || c == '\r'

/-- Characters matched by the regex class `\w` (`re.sub(r'\W', '', s)` keeps
exactly these; ASCII fragment of Python's Unicode-aware `\w`). -/
def isWordChar (c : Char) : Bool := c.isAlphanum || c == '_'

def trimChars (l : List Char) : List Char :=
  ((l.dropWhile isWs).reverse.dropWhile isWs).reverse

/-- Python `str.strip()` (ASCII whitespace). -/
def pyStrip (s : String) : String := String.mk (trimChars s.data)

/-- Python `str.lower()` (ASCII). -/
def pyLower (s : String) : String := String.mk (s.data.map Char.toLower)

/-- Python `s.split(':')[0]`: the text before the first colon. -/
def beforeColon (s : String) : String := String.mk (s.data.takeWhile (fun c => c != ':'))

/-- Python `s.split('.')[0]`: the text before the first dot. -/
def beforeDot (s : String) : String := String.mk (s.data.takeWhile (fun c => c != '.'))

/-- Python `s.replace(' ', '_')`. -/
def spacesToUnderscores (s : String) : String :=
  String.mk (s.data.map (fun c => if c == ' ' then '_' else c))

/-- Python `s.replace('>', '')`. -/
def removeGt (s : String) : String := String.mk (s.data.filter (fun c => c != '>'))

/-- Python `re.sub(r'\W', '', s)`: keep only word characters. -/
def sanitize (s : String) : String := String.mk (s.data.filter isWordChar)

/-- Python `'c' in s` for a single character `c`. -/
def hasChar (s : String) (c : Char) : Bool := s.data.contains c

/-- Python `re.sub('<|>', '', s)`, as applied to the Return-Path header. -/
def stripAngles (s : String) : String :=
  String.mk (s.data.filter (fun c => c != '<' && c != '>'))

def splitNlAux : List Char → List Char → List (List Char)
  | [], acc => [acc.reverse]
  | c :: cs, acc =>
    if c == '\n' then acc.reverse :: splitNlAux cs []
    else splitNlAux cs (c :: acc)

/-- Python `s.split('\n')` (in particular `''.split('\n') = ['']`). -/
def splitLines (s : String) : List String := (splitNlAux s.data []).map String.mk

/-- Python `os.path.join(dir, name)` for the flat directory layout used here. -/
def joinPath (d n : String) : String := d ++ "/" ++ n

/-- Whether `os.path.splitext(name)[1] == '.xlsx'`: the name ends in `.xlsx` and
the part before the extension contains some non-dot character (a basename made
only of leading dots has no extension for `splitext`). -/
def ext_is_xlsx (name : String) : Bool :=
  ['.', 'x', 'l', 's', 'x'].isSuffixOf name.data &&
    (name.data.take (name.data.length - 5)).any (fun c => c != '.')

/-- Python `os.path.splitext(name)[0]` for a name whose extension is `.xlsx`. -/
def primaryBase (name : String) : String :=
  String.mk (name.data.take (name.data.length - 5))

def isNameChar (c : Char) : Bool := isWordChar c || c == '-' || c == '.'

/-- Model of lxml's element-name validation: `etree.Element` / `etree.SubElement`
raise `ValueError` on an empty tag or one that does not start with a letter or
underscore. -/
def validName (s : String) : Bool :=
  match s.data with
  | [] => false
  | c :: cs => (c.isAlpha || c == '_') && cs.all isNameChar

/-! ## Cells and XML documents -/

/-- A spreadsheet cell as surfaced by `pandas.read_excel`: a missing cell is
`NaN` (`absent`), text is `str`, a date-typed cell is a `datetime` (kept as its
calendar-date and time-of-day strings), and a numeric cell stays a number. -/
inductive Cell where
  | absent
  | str (s : String)
  | date (ymd : String) (hms : String)
  | num (n : Int)
deriving DecidableEq, Repr

/-- Python `pd.isna` / `pd.isnull` on one cell: true exactly for the missing
value.  Note that an empty string is not `NaN`. -/
def Cell.isna : Cell → Bool
  | .absent => true
  | _ => false

/-- Cell at position `i` of a row; pandas pads short rows with `NaN`. -/
def getCell (r : List Cell) (i : Nat) : Cell := r.getD i Cell.absent

/-- Text content of an lxml element: ordinary text or a CDATA section. -/
inductive XText where
  | plain (s : String)
  | cdata (s : String)
deriving DecidableEq, Repr

/-- An lxml element: tag name, optional text content and child elements. -/
inductive Xml where
  | elem (name : String) (text : Option XText) (children : List Xml)

def Xml.name : Xml → String
  | .elem n _ _ => n

def Xml.text : Xml → Option XText
  | .elem _ t _ => t

def Xml.children : Xml → List Xml
  | .elem _ _ c => c

/-! ## Record extractor (`clean_collection`) -/

/-- The `collection` sheet as read by `pd.read_excel(..., sheet_name='collection')`:
the first sheet row becomes the header (the column names), the remaining rows
are the data rows. -/
structure CSheet where
  header : List Cell
  rows : List (List Cell)
deriving DecidableEq, Repr

/-- Number of columns pandas materialises for a sheet (widest of header and
data rows; shorter rows are padded with `NaN`). -/
def sheetCols (header : List Cell) (rows : List (List Cell)) : Nat :=
  (rows.map List.length).foldl max header.length

/-- One field (column) of the record produced by `clean_collection`: the label
obtained from the first cell of the source data row by `.str.strip()` (a
non-string cell becomes `NaN`), and the remaining cells of the row.  Downstream
code consults position 0 of `vals` for the element name and position 1 for the
field's value. -/
structure Field where
  label : Cell
  vals : List Cell
deriving DecidableEq, Repr

/-- Python's `.str.strip()` on one cell: trims text, maps anything else to `NaN`. -/
def strStripCell : Cell → Cell
  | .str s => .str (pyStrip s)
  | _ => .absent

def padTo (n : Nat) (l : List Cell) : List Cell :=
  l ++ List.replicate (n - l.length) Cell.absent

/-- `clean_collection` (processor.py lines 213-224).  The un-assigned
`collection.drop('ARCHIVES AFRICA: COLLECTION DATA', axis=1).drop(0)` is a
no-op on the frame but still raises `KeyError` when that header cell or data
row 0 is missing.  The frame is then transposed; its first row (the stripped
first-column cells) becomes the column labels and is sliced away by
`collection[1:]`, so each remaining record column holds the rest of the
corresponding source row; finally the `* Required` marker column is dropped,
raising `KeyError` when no such label exists.  `none` models a raised
exception. -/
def clean_collection (s : CSheet) : Option (List Field) :=
  if s.header.contains (Cell.str "ARCHIVES AFRICA: COLLECTION DATA") && !s.rows.isEmpty then
    let w := sheetCols s.header s.rows
    let fields := s.rows.map (fun r => Field.mk (strStripCell (getCell r 0)) (padTo (w - 1) (r.drop 1)))
    if fields.any (fun f => f.label == Cell.str "* Required") then
      some (fields.filter (fun f => !(f.label == Cell.str "* Required")))
    else none
  else none

/-! ## Validator (`get_missing_fields`) -/

/-- `get_missing_fields` (lines 227-237).  The columns are scanned in order; for
a label containing `*` the value cell (position 1) is consulted and the label
collected when the value is `NaN`.  A non-string label raises `TypeError` at
`'*' in c` and a missing position-1 cell raises `IndexError`; both are
modelled as `none`.  The function reads the record only — it is pure. -/
def get_missing_fields : List Field → Option (List String)
  | [] => some []
  | f :: fs =>
    match f.label with
    | .str c =>
      if hasChar c '*' then
        match f.vals[1]? with
        | none => none
        | some data =>
          (get_missing_fields fs).map (fun rest => if data.isna then c :: rest else rest)
      else get_missing_fields fs
    | _ => none

/-! ## Document builder (`collection_to_xml`, `process_collection`) -/

/-- One paragraph of a text value (lines 295-302): the line is stripped; an
empty result yields no paragraph; a line containing `<` or `>` is stored as a
CDATA section (kept verbatim), otherwise as plain text. -/
def mkPara (line : String) : Option Xml :=
  let t := pyStrip line
  if t == "" then none
  else some (Xml.elem "p"
    (some (if hasChar t '<' || hasChar t '>' then XText.cdata t else XText.plain t)) [])

def paras (s : String) : List Xml := (splitLines s).filterMap mkPara

/-- The element `collection_to_xml` builds for one record field (lines 284-307).
The outer `none` models a raised exception: `IndexError` on a missing cell,
`TypeError` from `re.sub` on a non-string name cell, `ValueError` from
`SubElement` for an invalid sanitised tag, or `TypeError` from `el.text = data`
when the value is neither a string nor a datetime.  The inner `none` means the
field is skipped because its value is `NaN`. -/
def renderField (f : Field) : Option (Option Xml) :=
  match f.vals[1]? with
  | none => none
  | some data =>
    if data.isna then some none
    else
      match f.vals[0]? with
      | none => none
      | some (Cell.str nm) =>
        let name := sanitize nm
        if validName name then
          match data with
          | Cell.str s => some (some (Xml.elem name none (paras s)))
          | Cell.date ymd _ => some (some (Xml.elem name (some (XText.plain ymd)) []))
          | _ => none
        else none
      | some _ => none

def collectRendered : List Field → Option (List Xml)
  | [] => some []
  | f :: fs =>
    match renderField f with
    | none => none
    | some none => collectRendered fs
    | some (some el) => (collectRendered fs).map (fun cs => el :: cs)

/-- `collection_to_xml` (lines 281-309). -/
def collection_to_xml (rec : List Field) : Option Xml :=
  (collectRendered rec).map (fun cs => Xml.elem "collection" none cs)

/-- `process_collection` (lines 276-278): build the primary document and write
it under `filename` in the output area; when `collection_to_xml` raises,
nothing is written. -/
def process_collection (rec : List Field) (filename : String) : Option (String × Xml) :=
  (collection_to_xml rec).map (fun x => (filename, x))

/-! ## Auxiliary term documents (`process_terms`, `terms_to_xml`) -/

/-- One secondary sheet as read by `pd.read_excel(excel, sheet_name)`: the first
sheet row becomes the header, the remaining rows are the data rows (row 0 of
which carries the per-column labels used for child names). -/
structure TSheet where
  header : List Cell
  rows : List (List Cell)
deriving DecidableEq, Repr

/-- Root-name normalisation of `process_terms` (lines 323-324):
`df.columns[0].split(':')[0].strip().lower().replace(' ', '_')`. -/
def normRoot (h : String) : String :=
  spacesToUnderscores (pyLower (pyStrip (beforeColon h)))

/-- Child-name normalisation of `terms_to_xml` (lines 342-345): text before the
colon, lowercased, every `>` removed, trimmed, spaces to underscores and the
remaining non-word characters stripped by `re.sub(r'\W', '', name)`. -/
def childNorm (s : String) : String :=
  sanitize (spacesToUnderscores (pyStrip (removeGt (pyLower (beforeColon s)))))

/-- First column name of a secondary sheet (`df.columns[0]`): a missing header
cell is materialised by pandas as the string `Unnamed: 0`; an empty sheet has
no columns (`IndexError`) and a numeric or date header cell has no `.split`
(`AttributeError`) — both modelled as `none`. -/
def headerFirst (sh : TSheet) : Option String :=
  match sh.header with
  | [] => none
  | c :: _ =>
    match c with
    | Cell.str h => some h
    | Cell.absent => some "Unnamed: 0"
    | _ => none

/-- Children of one term group (inner loop of `terms_to_xml`, lines 340-348)
over the column positions `poss`: a `NaN` cell is skipped; otherwise the label
cell of `iloc[0]` at that position must be a string (else `.split` raises), the
normalised tag must be valid, and the term itself must be a string (else
`el.text = term` raises `TypeError`).  `none` models a raised exception. -/
def groupCells (lr r : List Cell) : List Nat → Option (List Xml)
  | [] => some []
  | pos :: rest =>
    let cell := getCell r pos
    if cell.isna then groupCells lr r rest
    else
      match getCell lr pos with
      | Cell.str l =>
        let n := childNorm l
        if validName n then
          match cell with
          | Cell.str t =>
            (groupCells lr r rest).map (fun cs => Xml.elem n (some (XText.plain t)) [] :: cs)
          | _ => none
        else none
      | _ => none

/-- One `p` group per data row of the sheet (`p = etree.SubElement(xml, 'p')`
is created before the cells are examined, so a row of only `NaN`s still yields
an empty group). -/
def groupOf (w : Nat) (lr r : List Cell) : Option Xml :=
  (groupCells lr r (List.range w)).map (fun cs => Xml.elem "p" none cs)

def mapMOpt (f : α → Option β) : List α → Option (List β)
  | [] => some []
  | x :: xs =>
    match f x with
    | none => none
    | some b => (mapMOpt f xs).map (fun bs => b :: bs)

/-- `terms_to_xml` (lines 333-350): the root element (whose invalid name raises
`ValueError` in `etree.Element`), then — because `iterrows` indexes the data
rows from 0 and the loop body requires `idx > 0` — one group per data row
after the first, the first data row serving as the label row `iloc[0]`. -/
def terms_to_xml (sh : TSheet) (root : String) : Option Xml :=
  if validName root then
    match sh.rows with
    | [] => some (Xml.elem root none [])
    | lr :: drs =>
      (mapMOpt (groupOf (sheetCols sh.header sh.rows) lr) drs).map
        (fun gs => Xml.elem root none gs)
  else none

/-- `process_terms` for a single secondary sheet (lines 317-330): derive the
root name from the first column header, build the document, and write it as
`base_rootname.xml` (with `base = os.path.basename(xlsx).split('.')[0]`). -/
def processSheet (base : String) (sh : TSheet) : Option (String × Xml) :=
  match headerFirst sh with
  | none => none
  | some h =>
    let root := normRoot h
    (terms_to_xml sh root).map (fun x => (base ++ "_" ++ root ++ ".xml", x))

/-- Result of `process_terms` over all secondary sheets: either every sheet's
document was written, or a sheet raised after the files `outs` for the earlier
sheets had already been written. -/
inductive TermsRes where
  | ok (outs : List (String × Xml))
  | fail (outs : List (String × Xml))

def process_terms_go (base : String) : List TSheet → List (String × Xml) → TermsRes
  | [], acc => .ok acc
  | sh :: rest, acc =>
    match processSheet base sh with
    | none => .fail acc
    | some out => process_terms_go base rest (acc ++ [out])

/-- `process_terms` (lines 317-330) over `excel.sheet_names[1:]`: the sheets are
processed and their files written in order; a raise on one sheet leaves the
earlier sheets' files in place. -/
def process_terms (base : String) (sheets : List TSheet) : TermsRes :=
  process_terms_go base sheets []

/-! ## Configuration (`config.ini`) and sequence store -/

/-- Registry section for one sender in `config.ini`.  A sender section always
carries its `code`; the `sequence` and `language` options may be absent. -/
structure SenderCfg where
  code : String
  sequence : Option Nat
  language : Option String
deriving DecidableEq, Repr

structure Mailbox where
  address : String
  username : String
  password : String
deriving DecidableEq, Repr

structure Config where
  mailbox : Mailbox
  senders : List (String × SenderCfg)
  failureTemplates : List (String × String)
  successTemplates : List (String × String)
  adminEmail : Option String
deriving DecidableEq, Repr

def lookupA : List (String × α) → String → Option α
  | [], _ => none
  | (k, v) :: rest, s => if k == s then some v else lookupA rest s

/-- `is_email_address_known` (lines 121-122): `config.has_section(address)`. -/
def is_email_address_known (cfg : Config) (address : String) : Bool :=
  (lookupA cfg.senders address).isSome

/-- `config.set(address, 'sequence', str(seq))` on an existing section. -/
def setSeq : List (String × SenderCfg) → String → Nat → List (String × SenderCfg)
  | [], _, _ => []
  | (k, v) :: rest, s, n =>
    if k == s then (k, { v with sequence := some n }) :: rest
    else (k, v) :: setSeq rest s n

/-- In-memory and persisted effect of `update_sequence` (lines 143-147): set the
sender's `sequence` option and rewrite `config.ini`.  The non-atomic on-disk
write itself is modelled separately by `update_sequence_states`. -/
def update_sequence (cfg : Config) (address : String) (seq : Nat) : Config :=
  { cfg with senders := setSeq cfg.senders address seq }

/-- `save_attachment` (lines 125-140): look up the sender's registered code,
take the stored sequence counter + 1 (defaulting to 1 when the `sequence`
option is absent) and write the attachment bytes to `sandbox/code_seq.xlsx`.
`none` models the `NoSectionError` raised by `config.get` for an address
without a section. -/
def save_attachment (sandbox : String) (cfg : Config) (address : String) :
    Option (Nat × String) :=
  (lookupA cfg.senders address).map (fun sc =>
    let seq := match sc.sequence with | none => 1 | some n => n + 1
    (seq, joinPath sandbox (sc.code ++ "_" ++ toString seq ++ ".xlsx")))

/-! ## Notifications -/

/-- A sent e-mail, as (recipient, subject). -/
abbrev Notif := String × String

/-- `send_email` (lines 254-273): with an incomplete mailbox configuration the
function only logs and returns without sending; otherwise one message goes
out. -/
def send_email (cfg : Config) (toAddr : String) (subject : String) : List Notif :=
  if cfg.mailbox.address == "" || cfg.mailbox.username == "" || cfg.mailbox.password == "" then
    []
  else [(toAddr, subject)]

/-- Language for a sender: `config.get(email, 'language')` raises (`none`) when
the section or the option is missing; an empty value falls back to `'en'`. -/
def senderLang (cfg : Config) (email : String) : Option String :=
  match lookupA cfg.senders email with
  | none => none
  | some sc =>
    match sc.language with
    | none => none
    | some l => some (if l == "" then "en" else l)

/-- `send_failure_report` (lines 240-251): resolve the language, read the
failure template for it, then send one message.  The `Bool` is false when a
lookup raised (missing `language` option or template), in which case nothing
was sent. -/
def send_failure_report (cfg : Config) (email : String) : List Notif × Bool :=
  match senderLang cfg email with
  | none => ([], false)
  | some lang =>
    match lookupA cfg.failureTemplates lang with
    | none => ([], false)
    | some _ => (send_email cfg email "Missing fields", true)

/-- `send_success_report` (lines 353-369): send the localised thank-you message
to the sender, then the administrative notice; `config.get('reports', 'email')`
raises (`false`) when the option is missing — after the first message has
already gone out. -/
def send_success_report (cfg : Config) (email : String) : List Notif × Bool :=
  match senderLang cfg email with
  | none => ([], false)
  | some lang =>
    match lookupA cfg.successTemplates lang with
    | none => ([], false)
    | some _ =>
      let n1 := send_email cfg email "Thank you for your email"
      match cfg.adminEmail with
      | none => (n1, false)
      | some toAddr => (n1 ++ send_email cfg toAddr "New files added", true)

/-! ## Pipeline orchestrator (`process_attachments`) -/

/-- A staged spreadsheet's parsed content: the `collection` sheet (`none` when
`pd.read_excel(..., sheet_name='collection')` raises because the sheet is
missing) and the secondary sheets `sheet_names[1:]`. -/
structure Workbook where
  collection : Option CSheet
  secondary : List TSheet
deriving DecidableEq, Repr

/-- Result of the per-file `try` block of `process_attachments` (lines 169-208)
for a file found in the `attachments` map.  `toError` / `toSuccess`: the file
was moved to the error / success area and the loop continues.  `abortError` /
`abortSuccess`: an exception was raised after the file had already been moved,
so the handler's own `shutil.move(filepath, ...)` raises `FileNotFoundError`,
which propagates and aborts the whole loop.  `outs` are the documents already
written to the output area, `ns` the notifications already sent. -/
inductive StepRes where
  | toError (outs : List (String × Xml)) (ns : List Notif)
  | toSuccess (outs : List (String × Xml)) (ns : List Notif)
  | abortError (outs : List (String × Xml)) (ns : List Notif)
  | abortSuccess (outs : List (String × Xml)) (ns : List Notif)

/-- The body of the per-file `try` block (lines 169-208): extract, validate,
and either route to error with a failure report, or build the primary and
auxiliary documents, move to success and send the success report. -/
def pipelineFile (cfg : Config) (email : String) (wb : Workbook) (name : String) : StepRes :=
  match wb.collection with
  | none => .toError [] []
  | some sheet =>
    match clean_collection sheet with
    | none => .toError [] []
    | some rec =>
      match get_missing_fields rec with
      | none => .toError [] []
      | some missing =>
        if missing.isEmpty then
          match process_collection rec (primaryBase name ++ ".xml") with
          | none => .toError [] []
          | some primary =>
            match process_terms (beforeDot name) wb.secondary with
            | .fail termOuts => .toError (primary :: termOuts) []
            | .ok termOuts =>
              match send_success_report cfg email with
              | (ns, true) => .toSuccess (primary :: termOuts) ns
              | (ns, false) => .abortSuccess (primary :: termOuts) ns
        else
          match send_failure_report cfg email with
          | (ns, true) => .toError [] ns
          | (ns, false) => .abortError [] ns

/-- Final location of a staged file after the run. -/
inductive Loc where
  | stayed
  | error
  | success
deriving DecidableEq, Repr

/-- Cumulative state of the `process_attachments` loop: per-file final
locations (in discovery order), the documents in the output area, the
notifications sent, and whether the loop is still alive (`completed = false`
after an uncaught exception inside the `except` handler). -/
structure RunOut where
  locs : List (String × Loc)
  output : List (String × Xml)
  notifs : List Notif
  completed : Bool

/-- One iteration of the `os.walk` loop of `process_attachments` (lines
164-210): after an abort the remaining snapshot entries are never visited and
stay in the staging area; files without the `.xlsx` extension are ignored;
files not in the `attachments` map are skipped with a warning (and stay);
otherwise the per-file `try` block runs. -/
def runStep (sb : String) (cfg : Config) (att : List (String × String))
    (acc : RunOut) (f : String × Workbook) : RunOut :=
  if acc.completed = false then
    { acc with locs := acc.locs ++ [(f.1, Loc.stayed)] }
  else if ext_is_xlsx f.1 = false then
    { acc with locs := acc.locs ++ [(f.1, Loc.stayed)] }
  else
    match lookupA att (joinPath sb f.1) with
    | none => { acc with locs := acc.locs ++ [(f.1, Loc.stayed)] }
    | some email =>
      match pipelineFile cfg email f.2 f.1 with
      | .toError outs ns =>
        ⟨acc.locs ++ [(f.1, Loc.error)], acc.output ++ outs, acc.notifs ++ ns, true⟩
      | .toSuccess outs ns =>
        ⟨acc.locs ++ [(f.1, Loc.success)], acc.output ++ outs, acc.notifs ++ ns, true⟩
      | .abortError outs ns =>
        ⟨acc.locs ++ [(f.1, Loc.error)], acc.output ++ outs, acc.notifs ++ ns, false⟩
      | .abortSuccess outs ns =>
        ⟨acc.locs ++ [(f.1, Loc.success)], acc.output ++ outs, acc.notifs ++ ns, false⟩

/-- `process_attachments` (lines 150-210): with an empty (or `None`)
`attachments` map the function returns at once and every staged file stays;
otherwise the staging snapshot is processed in order.  `sb` is the configured
staging (sandbox) directory, used to rebuild `os.path.join(root, name)`. -/
def process_attachments (sb : String) (cfg : Config) (att : List (String × String))
    (staging : List (String × Workbook)) : RunOut :=
  if att.isEmpty then
    ⟨staging.map (fun f => (f.1, Loc.stayed)), [], [], true⟩
  else
    staging.foldl (runStep sb cfg att) ⟨[], [], [], true⟩

/-- The location a single staged file ends in, provided the loop reaches it
(no earlier abort). -/
def fileLoc (sb : String) (cfg : Config) (att : List (String × String))
    (f : String × Workbook) : Loc :=
  if ext_is_xlsx f.1 = false then Loc.stayed
  else
    match lookupA att (joinPath sb f.1) with
    | none => Loc.stayed
    | some email =>
      match pipelineFile cfg email f.2 f.1 with
      | .toError _ _ => Loc.error
      | .abortError _ _ => Loc.error
      | .toSuccess _ _ => Loc.success
      | .abortSuccess _ _ => Loc.success

/-! ## Attachment intake (`get_data_from_mailbox`) -/

/-- An unread message: its Return-Path header and the decoded payloads of its
attachment-bearing MIME leaves (an empty payload is skipped). -/
structure Msg where
  returnPath : String
  parts : List String
deriving DecidableEq, Repr

/-- Intake state: the (persisted) configuration, the staged file paths written,
the `attachments` path-to-sender map, and a log of every (sender, sequence)
pair used for a saved attachment. -/
structure IntakeState where
  cfg : Config
  staged : List String
  atts : List (String × String)
  seqLog : List (String × Nat)
deriving DecidableEq, Repr

/-- One attachment part of a message from the known sender `sender` (lines
89-108): an empty payload is skipped; otherwise the attachment is saved under
the next sequence number and `update_sequence` persists the new counter before
the next part is handled.  The `none` arm of `save_attachment` is unreachable
here because the sender's section was checked and `update_sequence` preserves
sections. -/
def intakePart (sb : String) (sender : String) (st : IntakeState) (payload : String) :
    IntakeState :=
  if payload == "" then st
  else
    match save_attachment sb st.cfg sender with
    | none => st
    | some (seq, fn) =>
      { cfg := update_sequence st.cfg sender seq
        staged := st.staged ++ [fn]
        atts := st.atts ++ [(fn, sender)]
        seqLog := st.seqLog ++ [(sender, seq)] }

/-- One message (lines 75-113): the sender is the Return-Path with angle
brackets stripped; a sender without a registry section is skipped entirely —
no file, no sequence update (and intake sends no notifications at all). -/
def intakeMsg (sb : String) (st : IntakeState) (m : Msg) : IntakeState :=
  let sender := stripAngles m.returnPath
  if is_email_address_known st.cfg sender then
    m.parts.foldl (intakePart sb sender) st
  else st

/-- `get_data_from_mailbox` (lines 48-118) for one crash-free run, starting
from the persisted configuration. -/
def get_data_from_mailbox (sb : String) (cfg : Config) (msgs : List Msg) : IntakeState :=
  msgs.foldl (intakeMsg sb) ⟨cfg, [], [], []⟩

/-- Several successive runs: the configuration persists across runs and the
sequence log accumulates every (sender, sequence) pair ever used. -/
def intakeRuns (sb : String) (cfg : Config) : List (List Msg) → Config × List (String × Nat)
  | [] => (cfg, [])
  | msgs :: rest =>
    let st := get_data_from_mailbox sb cfg msgs
    let r := intakeRuns sb st.cfg rest
    (r.1, st.seqLog ++ r.2)

def seqsFor (s : String) (log : List (String × Nat)) : List Nat :=
  log.filterMap (fun p => if p.1 == s then some p.2 else none)

/-! ## On-disk model of the sequence-store rewrite -/

/-- Abstract lines of a sender's section in `config.ini` as rewritten by
`update_sequence`'s `open(filename, 'w'); config.write(f)`. -/
inductive CfgLine where
  | sectionHeader
  | codeLine
  | seqLine (n : Nat)
deriving DecidableEq, Repr

def configLines (seq : Nat) : List CfgLine :=
  [CfgLine.sectionHeader, CfgLine.codeLine, CfgLine.seqLine seq]

/-- On-disk states `update_sequence` can leave behind when the process crashes
during the rewrite: `open(..., 'w')` truncates the file first and the new
content is then written out incrementally, so every prefix of the new lines is
a possible state (the last one being the completed write). -/
def update_sequence_states (seq : Nat) : List (List CfgLine) :=
  (List.range (configLines seq).length.succ).map (fun k => (configLines seq).take k)

def storedSeq (file : List CfgLine) : Option Nat :=
  file.findSome? (fun l => match l with | CfgLine.seqLine n => some n | _ => none)

/-- The sequence number the next run's `save_attachment` would use for this
sender given the recovered file: `none` when the section header or the `code`
line is gone (the sender is then unknown, or `config.get` raises). -/
def recoverNext (file : List CfgLine) : Option Nat :=
  if file.contains CfgLine.sectionHeader && file.contains CfgLine.codeLine then
    some (match storedSeq file with | none => 1 | some n => n + 1)
  else none

/-! ## Definitions modelled from the specification's wording (for comparison) -/

/-- Modelled from the spec (claim C5's wording): the record said to be obtained
by discarding the leading label column and leading label row and transposing,
so that each data row's header (its first cell, stripped) becomes the field
label and "the single remaining data row" — here the single remaining cell of
the source row — becomes the field's value, with the `* Required` marker row
stripped. -/
def clean_collection_claimed (s : CSheet) : List (String × Cell) :=
  s.rows.filterMap (fun r =>
    match strStripCell (getCell r 0) with
    | .str l => if l == "* Required" then none else some (l, getCell r 1)
    | _ => none)

/-- Modelled from the spec (claim C9's wording): child names obtained by the
same normalisation as the root name, with trailing bracket characters
stripped. -/
def childNormClaimed (s : String) : String :=
  String.mk (((normRoot s).data.reverse.dropWhile (fun c => c == '>')).reverse)

/-! ## Concrete fixtures used by witnesses and counterexamples -/

/-- A well-formed `collection` sheet: title header, the `* Required` legend
row, and one required field row `[label, name, value]`. -/
def shGood : CSheet :=
  ⟨[Cell.str "ARCHIVES AFRICA: COLLECTION DATA", Cell.str "N", Cell.str "V"],
   [[Cell.str "* Required", Cell.absent, Cell.absent],
    [Cell.str "Title*", Cell.str "title", Cell.str "My Archive"]]⟩

/-- The record `clean_collection` extracts from `shGood`. -/
def recTitle : List Field :=
  [⟨Cell.str "Title*", [Cell.str "title", Cell.str "My Archive"]⟩]

/-- A registry with one sender, complete notification configuration and a
valid mailbox section. -/
def cfgA : Config :=
  ⟨⟨"imap.x.org", "user", "pw"⟩,
   [("a@x.org", ⟨"AX", none, some "en"⟩)],
   [("en", "failmsg")], [("en", "okmsg")], some "admin@x.org"⟩

def wbGood : Workbook := ⟨some shGood, []⟩

/-- A secondary sheet whose first data row after the label row has a numeric
cell, so `el.text = term` raises `TypeError` inside `terms_to_xml`. -/
def shTermBad : TSheet :=
  ⟨[Cell.str "TERMS: misc", Cell.str "B"],
   [[Cell.str "term", Cell.str "other"], [Cell.num 1, Cell.str "x"]]⟩

/-- Valid primary sheet, failing secondary sheet. -/
def wbTermFail : Workbook := ⟨some shGood, [shTermBad]⟩

/-- A `collection` sheet whose required field carries a numeric value: it
passes validation (a number is not `NaN`) but `collection_to_xml` raises. -/
def shNum : CSheet :=
  ⟨[Cell.str "ARCHIVES AFRICA: COLLECTION DATA", Cell.str "N", Cell.str "V"],
   [[Cell.str "* Required", Cell.absent, Cell.absent],
    [Cell.str "Title*", Cell.str "title", Cell.num 7]]⟩

def wbNum : Workbook := ⟨some shNum, []⟩

/-- The record `clean_collection` extracts from `shNum`. -/
def recNum : List Field := [⟨Cell.str "Title*", [Cell.str "title", Cell.num 7]⟩]

/-- Attachment map of a run that staged the single file `AX_1.xlsx`. -/
def attA : List (String × String) := [("sandbox/AX_1.xlsx", "a@x.org")]

/-- Attachment map of a run that staged `AX_1.xlsx` and `AX_2.xlsx`. -/
def attAB : List (String × String) :=
  [("sandbox/AX_1.xlsx", "a@x.org"), ("sandbox/AX_2.xlsx", "a@x.org")]

/-- A secondary sheet with one label whose name normalisation differs from the
claimed one (`a*b` keeps its `*` under the claimed normalisation, the code
strips it). -/
def shC9 : TSheet := ⟨[Cell.str "TERMS: misc"], [[Cell.str "a*b"], [Cell.str "v"]]⟩

/-- A well-behaved secondary sheet: header, label row, two data rows with one
absent cell each. -/
def shTermsGood : TSheet :=
  ⟨[Cell.str "TERMS: misc", Cell.str "B"],
   [[Cell.str "Term", Cell.str "Place name"],
    [Cell.str "alpha", Cell.absent],
    [Cell.absent, Cell.str "beta"]]⟩

/-! ## Validator helpers and lemmas -/

/-- Whether the field label carries the required marker (`'*' in c`). -/
def Field.requiredB (f : Field) : Bool :=
  match f.label with
  | Cell.str c => hasChar c '*'
  | _ => false

/-- Whether the field's value cell (position 1) is `NaN`. -/
def Field.valueAbsentB (f : Field) : Bool := (getCell f.vals 1).isna

/-- The labels `get_missing_fields` is expected to return: required-marked
labels whose value cell is `NaN`, in record order. -/
def requiredMissingOf (rec : List Field) : List String :=
  rec.filterMap (fun f =>
    match f.label with
    | Cell.str c => if hasChar c '*' && (getCell f.vals 1).isna then some c else none
    | _ => none)

theorem get?_of_len {l : List Cell} (h : 2 ≤ l.length) : l[1]? = some (getCell l 1) := by
  cases hq : l[1]? with
  | none => rw [List.getElem?_eq_none_iff] at hq; omega
  | some v => simp [getCell, List.getD_eq_getElem?_getD, hq]

theorem get_missing_fields_eq (rec : List Field)
    (h : ∀ f ∈ rec, (∃ s, f.label = Cell.str s) ∧ 2 ≤ f.vals.length) :
    get_missing_fields rec = some (requiredMissingOf rec) := by
  induction rec with
  | nil => rfl
  | cons f fs ih =>
    obtain ⟨⟨s, hs⟩, hlen⟩ := h f (by simp)
    have ih2 := ih (fun g hg => h g (by simp [hg]))
    have hv : f.vals[1]? = some (getCell f.vals 1) := get?_of_len hlen
    by_cases hstar : hasChar s '*' = true
    · by_cases habs : (getCell f.vals 1).isna = true
      · simp [get_missing_fields, requiredMissingOf, hs, hstar, hv, habs, ih2,
          List.filterMap_cons]
      · simp [get_missing_fields, requiredMissingOf, hs, hstar, hv, habs, ih2,
          List.filterMap_cons]
    · simp [get_missing_fields, requiredMissingOf, hs, hstar, ih2, List.filterMap_cons]

/-- C4: for every Normalized Record (every field labelled by a string — a
non-string label makes the Python raise — and wide enough that the value cell
exists), the validator returns exactly the required-marked labels whose value
is absent, and it returns the empty set iff every required label has a present
value.  Absent here is `pd.isna`, i.e. the missing/null cell of the data
model (the validator reads the record only, so it is pure by construction). -/
theorem C4_validator (rec : List Field)
    (h : ∀ f ∈ rec, (∃ s, f.label = Cell.str s) ∧ 2 ≤ f.vals.length) :
    get_missing_fields rec = some (requiredMissingOf rec) ∧
      (get_missing_fields rec = some [] ↔
        ∀ f ∈ rec, f.requiredB = true → f.valueAbsentB = false) := by
  have main := get_missing_fields_eq rec h
  refine ⟨main, ?_⟩
  rw [main, Option.some_inj]
  rw [requiredMissingOf, List.filterMap_eq_nil_iff]
  constructor
  · intro hall f hf hreq
    have h2 := hall f hf
    obtain ⟨⟨s, hs⟩, _⟩ := h f hf
    simp only [Field.requiredB, hs] at hreq
    simp only [hs, hreq, Bool.true_and] at h2
    by_cases habs : (getCell f.vals 1).isna = true
    · simp [habs] at h2
    · simpa [Field.valueAbsentB] using habs
  · intro hall f hf
    obtain ⟨⟨s, hs⟩, _⟩ := h f hf
    have h2 := hall f hf
    simp only [Field.requiredB, Field.valueAbsentB, hs] at h2
    by_cases hstar : hasChar s '*' = true
    · simp [hs, hstar, h2 hstar]
    · simp [hs, hstar]

/-- Witness for C4 on a concrete two-field record: the required field with an
absent value is reported, the optional absent field and the present required
field are not. -/
theorem C4_validator_witness :
    get_missing_fields
        [⟨Cell.str "Title*", [Cell.str "title", Cell.str "x"]⟩,
         ⟨Cell.str "Date*", [Cell.str "date_el", Cell.absent]⟩,
         ⟨Cell.str "Notes", [Cell.str "notes", Cell.absent]⟩] =
      some ["Date*"] := by
  have h := C4_validator
    [⟨Cell.str "Title*", [Cell.str "title", Cell.str "x"]⟩,
     ⟨Cell.str "Date*", [Cell.str "date_el", Cell.absent]⟩,
     ⟨Cell.str "Notes", [Cell.str "notes", Cell.absent]⟩]
    (by
      intro f hf
      simp only [List.mem_cons, List.not_mem_nil, or_false] at hf
      rcases hf with h1 | h1 | h1 <;> subst h1
      · exact ⟨⟨"Title*", rfl⟩, by decide⟩
      · exact ⟨⟨"Date*", rfl⟩, by decide⟩
      · exact ⟨⟨"Notes", rfl⟩, by decide⟩)
  exact h.1.trans (by decide)

/-! ## Record extractor: C5 -/

/-- C5 counterexample: on the well-formed sheet `shGood` the extractor's record
keeps TWO cells per field (the name row and the value row) — it is not a
mapping of labels to the values of a "single remaining data row".  The value
the pipeline consults downstream (`collection[c][1]`) is the third source
column ("My Archive"), whereas the record claimed by the spec would carry the
second column ("title") as the single value. -/
theorem C5_extractor_counterexample :
    clean_collection shGood = some recTitle ∧
    recTitle.map (fun f => f.vals.length) = [2] ∧
    recTitle.map (fun f => getCell f.vals 1) = [Cell.str "My Archive"] ∧
    clean_collection_claimed shGood = [("Title*", Cell.str "title")] ∧
    ¬(Cell.str "title" = Cell.str "My Archive") := by
  exact ⟨by decide, by decide, by decide, by decide, by decide⟩

theorem foldl_max_le_init (l : List Nat) (a : Nat) : a ≤ l.foldl max a := by
  induction l generalizing a with
  | nil => exact Nat.le_refl a
  | cons x xs ih => exact Nat.le_trans (Nat.le_max_left a x) (ih (max a x))

theorem mem_le_foldl_max (l : List Nat) (a : Nat) : ∀ x ∈ l, x ≤ l.foldl max a := by
  induction l generalizing a with
  | nil => intro x hx; cases hx
  | cons y ys ih =>
    intro x hx
    rcases List.mem_cons.mp hx with rfl | hx2
    · exact Nat.le_trans (Nat.le_max_right a x) (foldl_max_le_init ys (max a x))
    · exact ih (max a y) x hx2

theorem padTo_length {n : Nat} {l : List Cell} (h : l.length ≤ n) :
    (padTo n l).length = n := by
  simp only [padTo, List.length_append, List.length_replicate]
  omega

/-- C5 amended: `clean_collection` labels each data row by its trimmed
first-column cell and keeps ALL remaining cells of the row (padded to the
sheet width) as the record's value rows — downstream, position 0 is the
element name and position 1 the field value; the row labelled `* Required` is
dropped, and the extractor raises when no such marker row exists (or when the
title header cell or every data row is missing). -/
theorem C5_extractor_amended (s : CSheet)
    (hdr : s.header.contains (Cell.str "ARCHIVES AFRICA: COLLECTION DATA") = true)
    (hne : s.rows.isEmpty = false)
    (hmark : s.rows.any (fun r => strStripCell (getCell r 0) == Cell.str "* Required") = true) :
    clean_collection s =
      some ((s.rows.map (fun r => Field.mk (strStripCell (getCell r 0))
          (padTo (sheetCols s.header s.rows - 1) (r.drop 1)))).filter
          (fun f => !(f.label == Cell.str "* Required"))) ∧
    (∀ rec, clean_collection s = some rec →
      ∀ f ∈ rec, f.vals.length = sheetCols s.header s.rows - 1) ∧
    (∀ s' : CSheet,
      s'.rows.any (fun r => strStripCell (getCell r 0) == Cell.str "* Required") = false →
      clean_collection s' = none) := by
  have hgen : ∀ (w : Nat) (rows : List (List Cell)),
      ((rows.map (fun r => Field.mk (strStripCell (getCell r 0)) (padTo w (r.drop 1)))).any
        (fun f => f.label == Cell.str "* Required")) =
      rows.any (fun r => strStripCell (getCell r 0) == Cell.str "* Required") := by
    intro w rows
    induction rows with
    | nil => rfl
    | cons r rs ih => simp only [List.map_cons, List.any_cons, ih]
  have hany : ∀ t : CSheet,
      ((t.rows.map (fun r => Field.mk (strStripCell (getCell r 0))
          (padTo (sheetCols t.header t.rows - 1) (r.drop 1)))).any
        (fun f => f.label == Cell.str "* Required")) =
      t.rows.any (fun r => strStripCell (getCell r 0) == Cell.str "* Required") := by
    intro t
    exact hgen _ t.rows
  have hmain : clean_collection s =
      some ((s.rows.map (fun r => Field.mk (strStripCell (getCell r 0))
          (padTo (sheetCols s.header s.rows - 1) (r.drop 1)))).filter
          (fun f => !(f.label == Cell.str "* Required"))) := by
    unfold clean_collection
    rw [hdr]
    simp only [hne, Bool.not_false, Bool.and_true, if_true]
    rw [hany s, hmark]
    rfl
  refine ⟨hmain, ?_, ?_⟩
  · intro rec hrec f hf
    rw [hmain, Option.some_inj] at hrec
    subst hrec
    have hf2 := List.mem_of_mem_filter hf
    obtain ⟨r, hr, rfl⟩ := List.mem_map.mp hf2
    have hle : r.length ≤ sheetCols s.header s.rows := by
      exact mem_le_foldl_max (s.rows.map List.length) s.header.length r.length
        (List.mem_map_of_mem List.length hr)
    have : (r.drop 1).length ≤ sheetCols s.header s.rows - 1 := by
      simp only [List.length_drop]
      omega
    exact padTo_length this
  · intro s' hnone
    unfold clean_collection
    by_cases hd : s'.header.contains (Cell.str "ARCHIVES AFRICA: COLLECTION DATA") = true
    · rw [hd]
      cases hne' : s'.rows.isEmpty
      · simp only [Bool.not_false, Bool.and_true, if_true]
        rw [hany s', hnone]
        rfl
      · rfl
    · simp only [Bool.not_eq_true] at hd
      rw [hd]
      rfl

/-- Witness for the amended C5 on the concrete sheet `shGood`. -/
theorem C5_extractor_amended_witness : clean_collection shGood = some recTitle := by
  have h := C5_extractor_amended shGood (by decide) (by decide) (by decide)
  exact h.1.trans (by decide)

/-! ## Document builder: well-typed records and the C7/C8/C10 lemmas -/

/-- Values `collection_to_xml` can render: strings and datetimes. -/
def Cell.isStrOrDate : Cell → Bool
  | .str _ => true
  | .date _ _ => true
  | _ => false

/-- A field `collection_to_xml` can process without raising: the value cell
exists, and is either `NaN` (the field is skipped) or is a string/datetime
while the name cell is a string whose sanitised form is a valid tag. -/
def goodField (f : Field) : Bool :=
  match f.vals[1]? with
  | none => false
  | some v =>
    v.isna ||
      (match f.vals[0]? with
       | some (Cell.str nm) => validName (sanitize nm) && v.isStrOrDate
       | _ => false)

def goodRecord (rec : List Field) : Bool := rec.all goodField

/-- The element a good field contributes (`none` when the field is skipped
because its value is `NaN`). -/
def fieldElemOf (f : Field) : Option Xml :=
  match f.vals[1]? with
  | none => none
  | some v =>
    if v.isna then none
    else
      match f.vals[0]? with
      | some (Cell.str nm) =>
        some (match v with
          | Cell.str s => Xml.elem (sanitize nm) none (paras s)
          | Cell.date ymd _ => Xml.elem (sanitize nm) (some (XText.plain ymd)) []
          | _ => Xml.elem (sanitize nm) none [])
      | _ => none

theorem renderField_good (f : Field) (hg : goodField f = true) :
    renderField f = some (fieldElemOf f) := by
  cases hv : f.vals[1]? with
  | none => simp [goodField, hv] at hg
  | some v =>
    by_cases hna : v.isna = true
    · simp [renderField, fieldElemOf, hv, hna]
    · cases hn : f.vals[0]? with
      | none => simp [goodField, hv, hna, hn] at hg
      | some c =>
        cases c with
        | str nm =>
          have hval : validName (sanitize nm) = true ∧ v.isStrOrDate = true := by
            simpa [goodField, hv, hna, hn] using hg
          cases v with
          | absent => simp [Cell.isna] at hna
          | str s => simp [renderField, fieldElemOf, hv, hna, hn, hval.1]
          | date y t => simp [renderField, fieldElemOf, hv, hna, hn, hval.1]
          | num n => simp [Cell.isStrOrDate] at hval
        | absent => simp [goodField, hv, hna, hn] at hg
        | date y t => simp [goodField, hv, hna, hn] at hg
        | num n => simp [goodField, hv, hna, hn] at hg

theorem collectRendered_good (rec : List Field) (hg : goodRecord rec = true) :
    collectRendered rec = some (rec.filterMap fieldElemOf) := by
  induction rec with
  | nil => rfl
  | cons f fs ih =>
    have hg2 : goodField f = true ∧ goodRecord fs = true := by
      simpa [goodRecord, List.all_cons, Bool.and_eq_true] using hg
    obtain ⟨hgf, hgs⟩ := hg2
    cases he : fieldElemOf f with
    | none => simp [collectRendered, renderField_good f hgf, he, ih hgs, List.filterMap_cons]
    | some el => simp [collectRendered, renderField_good f hgf, he, ih hgs, List.filterMap_cons]

theorem renderField_badValue (f : Field) (v : Cell) (hv : f.vals[1]? = some v)
    (hna : v.isna = false) (hsd : v.isStrOrDate = false) : renderField f = none := by
  cases v with
  | absent => simp [Cell.isna] at hna
  | str s => simp [Cell.isStrOrDate] at hsd
  | date a b => simp [Cell.isStrOrDate] at hsd
  | num n =>
    cases hn : f.vals[0]? with
    | none => simp [renderField, hv, hn, Cell.isna]
    | some c =>
      cases c with
      | str nm =>
        by_cases hvn : validName (sanitize nm) = true <;>
          simp [renderField, hv, hn, hvn, Cell.isna]
      | absent => simp [renderField, hv, hn, Cell.isna]
      | date a b => simp [renderField, hv, hn, Cell.isna]
      | num m => simp [renderField, hv, hn, Cell.isna]

theorem collectRendered_badValue (rec : List Field) (f : Field) (v : Cell)
    (hmem : f ∈ rec) (hv : f.vals[1]? = some v) (hna : v.isna = false)
    (hsd : v.isStrOrDate = false) : collectRendered rec = none := by
  induction rec with
  | nil => cases hmem
  | cons g gs ih =>
    rcases List.mem_cons.mp hmem with rfl | hmem2
    · simp [collectRendered, renderField_badValue f v hv hna hsd]
    · cases hrf : renderField g with
      | none => simp [collectRendered, hrf]
      | some o => cases o <;> simp [collectRendered, hrf, ih hmem2]

/-! ## C7: element names of the primary document -/

/-- The sanitised name-row entry of a present field (what the code actually
uses for the element tag), `none` for a skipped field. -/
def presentNameOf (f : Field) : Option String :=
  match f.vals[1]?, f.vals[0]? with
  | some v, some (Cell.str nm) => if v.isna then none else some (sanitize nm)
  | _, _ => none

theorem fieldElemOf_name (f : Field) (hg : goodField f = true) :
    (fieldElemOf f).map Xml.name = presentNameOf f := by
  cases hv : f.vals[1]? with
  | none => simp [goodField, hv] at hg
  | some v =>
    by_cases hna : v.isna = true
    · simp [fieldElemOf, presentNameOf, hv, hna]
      cases hn : f.vals[0]? with
      | none => rfl
      | some c => cases c <;> simp [hna]
    · cases hn : f.vals[0]? with
      | none => simp [goodField, hv, hna, hn] at hg
      | some c =>
        cases c with
        | str nm =>
          cases v <;> simp [fieldElemOf, presentNameOf, hv, hna, hn, Xml.name]
        | absent => simp [goodField, hv, hna, hn] at hg
        | date y t => simp [goodField, hv, hna, hn] at hg
        | num n => simp [goodField, hv, hna, hn] at hg

theorem fieldElemOf_isSome (f : Field) (hg : goodField f = true) :
    (fieldElemOf f).isSome = !f.valueAbsentB := by
  cases hv : f.vals[1]? with
  | none => simp [goodField, hv] at hg
  | some v =>
    have hvc : getCell f.vals 1 = v := by
      simp [getCell, List.getD_eq_getElem?_getD, hv]
    by_cases hna : v.isna = true
    · simp [fieldElemOf, Field.valueAbsentB, hv, hna, hvc]
    · cases hn : f.vals[0]? with
      | none => simp [goodField, hv, hna, hn] at hg
      | some c =>
        cases c with
        | str nm => simp [fieldElemOf, Field.valueAbsentB, hv, hna, hn, hvc]
        | absent => simp [goodField, hv, hna, hn] at hg
        | date y t => simp [goodField, hv, hna, hn] at hg
        | num n => simp [goodField, hv, hna, hn] at hg

theorem filterMap_fieldElemOf_names (rec : List Field) (hg : goodRecord rec = true) :
    (rec.filterMap fieldElemOf).map Xml.name = rec.filterMap presentNameOf := by
  induction rec with
  | nil => rfl
  | cons f fs ih =>
    have hg2 : goodField f = true ∧ goodRecord fs = true := by
      simpa [goodRecord, List.all_cons, Bool.and_eq_true] using hg
    have hpt := fieldElemOf_name f hg2.1
    cases he : fieldElemOf f with
    | none =>
      rw [he] at hpt
      simp only [Option.map_none'] at hpt
      simp [List.filterMap_cons, he, ← hpt, ih hg2.2]
    | some el =>
      rw [he] at hpt
      simp only [Option.map_some'] at hpt
      simp [List.filterMap_cons, he, ← hpt, ih hg2.2]

theorem filterMap_fieldElemOf_length (rec : List Field) (hg : goodRecord rec = true) :
    (rec.filterMap fieldElemOf).length =
      (rec.filter (fun f => !f.valueAbsentB)).length := by
  induction rec with
  | nil => rfl
  | cons f fs ih =>
    have hg2 : goodField f = true ∧ goodRecord fs = true := by
      simpa [goodRecord, List.all_cons, Bool.and_eq_true] using hg
    have hsm := fieldElemOf_isSome f hg2.1
    cases he : fieldElemOf f with
    | none =>
      rw [he] at hsm
      simp only [Option.isSome_none] at hsm
      simp [List.filterMap_cons, List.filter_cons, he, ← hsm, ih hg2.2]
    | some el =>
      rw [he] at hsm
      simp only [Option.isSome_some] at hsm
      simp [List.filterMap_cons, List.filter_cons, he, ← hsm, ih hg2.2]

/-- C7 counterexample: `recTitle` (extracted from the well-formed sheet
`shGood`, with no absent required field) yields the element name `title`,
taken from the record's name row — not the sanitised label `Title`.  The
multiset of element names is therefore not the sanitised label set. -/
theorem C7_roundtrip_counterexample :
    get_missing_fields recTitle = some [] ∧
    (collection_to_xml recTitle).map (fun d => d.children.map Xml.name) = some ["title"] ∧
    recTitle.filterMap (fun f =>
      match f.label with
      | Cell.str c => some (sanitize c)
      | _ => none) = ["Title"] ∧
    ¬(["title"] : List String) = ["Title"] := by
  exact ⟨by decide, by decide, by decide, by decide⟩

/-- C7 amended: for a good record (every present value a string or datetime,
every present name cell a string with a valid sanitised tag) with no absent
required fields, `collection_to_xml` succeeds, produces exactly one element
per present field and none for absent fields, and the list of element names
equals the sanitised NAME-ROW entries (`collection[c][0]`) of the present
fields, in record order. -/
theorem C7_roundtrip_amended (rec : List Field) (hg : goodRecord rec = true)
    (hm : get_missing_fields rec = some []) :
    ∃ doc, collection_to_xml rec = some doc ∧
      doc.children.map Xml.name = rec.filterMap presentNameOf ∧
      doc.children.length = (rec.filter (fun f => !f.valueAbsentB)).length := by
  refine ⟨Xml.elem "collection" none (rec.filterMap fieldElemOf), ?_, ?_, ?_⟩
  · rw [collection_to_xml, collectRendered_good rec hg]
    rfl
  · simpa [Xml.children] using filterMap_fieldElemOf_names rec hg
  · simpa [Xml.children] using filterMap_fieldElemOf_length rec hg

/-- Witness for the amended C7 on a two-field record with one absent optional
field: one element, named from the name row. -/
theorem C7_roundtrip_amended_witness :
    (collection_to_xml
        [⟨Cell.str "Title*", [Cell.str "title", Cell.str "My Archive"]⟩,
         ⟨Cell.str "Scope", [Cell.str "scope", Cell.absent]⟩]).map
      (fun d => d.children.map Xml.name) = some ["title"] := by
  obtain ⟨doc, hd, hn, hl⟩ := C7_roundtrip_amended
    [⟨Cell.str "Title*", [Cell.str "title", Cell.str "My Archive"]⟩,
     ⟨Cell.str "Scope", [Cell.str "scope", Cell.absent]⟩]
    (by decide) (by decide)
  rw [hd, Option.map_some']
  exact congrArg some (hn.trans (by decide))

/-! ## C8: rendering of the three value kinds -/

theorem paras_eq (s : String) :
    paras s = ((splitLines s).map pyStrip).filterMap (fun t =>
      if t == "" then none
      else some (Xml.elem "p"
        (some (if hasChar t '<' || hasChar t '>' then XText.cdata t else XText.plain t))
        [])) := by
  rw [paras, List.filterMap_map]
  rfl

/-- C8 counterexample: a present value that is neither a string nor a datetime
(here the number 5) is not "rendered as plain text" — the assignment
`el.text = data` raises `TypeError`, so no element and no document is produced
at all. -/
theorem C8_render_counterexample :
    renderField ⟨Cell.str "Count*", [Cell.str "count", Cell.num 5]⟩ = none ∧
    (Cell.num 5).isna = false ∧
    collection_to_xml [⟨Cell.str "Count*", [Cell.str "count", Cell.num 5]⟩] = none := by
  exact ⟨rfl, rfl, rfl⟩

/-- C8 amended: for a field whose name cell is a string with a valid sanitised
tag — every textual value (single- or multi-line) is split on line breaks into
one paragraph child per line that is non-empty after trimming, the trimmed
line kept verbatim in a CDATA region exactly when it contains `<` or `>` (and
as plain text otherwise, never entity-escaped); a datetime value is rendered
as its ISO calendar date with the time component dropped; any other value
raises `TypeError` and produces nothing. -/
theorem C8_render_amended (f : Field) (nm : String)
    (h0 : f.vals[0]? = some (Cell.str nm)) (hvld : validName (sanitize nm) = true) :
    (∀ s, f.vals[1]? = some (Cell.str s) →
      renderField f = some (some (Xml.elem (sanitize nm) none
        (((splitLines s).map pyStrip).filterMap (fun t =>
          if t == "" then none
          else some (Xml.elem "p"
            (some (if hasChar t '<' || hasChar t '>' then XText.cdata t else XText.plain t))
            [])))))) ∧
    (∀ ymd hms, f.vals[1]? = some (Cell.date ymd hms) →
      renderField f = some (some (Xml.elem (sanitize nm) (some (XText.plain ymd)) []))) ∧
    (∀ n, f.vals[1]? = some (Cell.num n) → renderField f = none) := by
  refine ⟨?_, ?_, ?_⟩
  · intro s hv
    simp [renderField, hv, h0, hvld, Cell.isna, paras_eq]
  · intro ymd hms hv
    simp [renderField, hv, h0, hvld, Cell.isna]
  · intro n hv
    simp [renderField, hv, h0, hvld, Cell.isna]

/-- Witness for the amended C8: a three-line text value (one line blank, one
with angle brackets) and a datetime value with a nonzero time component. -/
theorem C8_render_amended_witness :
    renderField ⟨Cell.str "Desc*", [Cell.str "desc", Cell.str "line1\nx <b>\n \n"]⟩ =
      some (some (Xml.elem "desc" none
        [Xml.elem "p" (some (XText.plain "line1")) [],
         Xml.elem "p" (some (XText.cdata "x <b>")) []])) ∧
    renderField ⟨Cell.str "Date*", [Cell.str "datefield", Cell.date "2020-05-06" "13:45:00"]⟩ =
      some (some (Xml.elem "datefield" (some (XText.plain "2020-05-06")) [])) := by
  constructor
  · have h := (C8_render_amended
      ⟨Cell.str "Desc*", [Cell.str "desc", Cell.str "line1\nx <b>\n \n"]⟩
      "desc" rfl (by decide)).1 "line1\nx <b>\n \n" rfl
    exact h.trans (by rfl)
  · have h := (C8_render_amended
      ⟨Cell.str "Date*", [Cell.str "datefield", Cell.date "2020-05-06" "13:45:00"]⟩
      "datefield" rfl (by decide)).2.1 "2020-05-06" "13:45:00" rfl
    exact h.trans (by rfl)

/-! ## C10: totality of the builder and the post-validation error route -/

/-- C10: `collection_to_xml` treats only strings and datetimes specially; it
succeeds on every good record, and any present value of another kind (a
numeric cell) makes it raise, so the per-file catch-all routes the file to the
error area even though validation passed.  The third conjunct runs the whole
orchestrator on such a file: validation reports no missing field, yet the file
ends in the error area and nothing is written to the output area. -/
theorem C10_type_domain :
    (∀ rec : List Field, goodRecord rec = true → (collection_to_xml rec).isSome = true) ∧
    (∀ (rec : List Field) (f : Field) (v : Cell), f ∈ rec → f.vals[1]? = some v →
        v.isna = false → v.isStrOrDate = false → collection_to_xml rec = none) ∧
    (get_missing_fields recNum = some [] ∧
      (process_attachments "sandbox" cfgA attA [("AX_1.xlsx", wbNum)]).locs =
        [("AX_1.xlsx", Loc.error)] ∧
      (process_attachments "sandbox" cfgA attA [("AX_1.xlsx", wbNum)]).output = []) := by
  refine ⟨?_, ?_, by decide, by decide, rfl⟩
  · intro rec hg
    rw [collection_to_xml, collectRendered_good rec hg]
    rfl
  · intro rec f v hmem hv hna hsd
    rw [collection_to_xml, collectRendered_badValue rec f v hmem hv hna hsd]
    rfl

/-- Witness for C10: the good record `recTitle` is rendered; the record
`recNum`, whose required value is the number 7, makes the builder raise. -/
theorem C10_type_domain_witness :
    (collection_to_xml recTitle).isSome = true ∧ collection_to_xml recNum = none := by
  constructor
  · exact C10_type_domain.1 recTitle (by decide)
  · exact C10_type_domain.2.1 recNum ⟨Cell.str "Title*", [Cell.str "title", Cell.num 7]⟩
      (Cell.num 7) (by decide) rfl rfl rfl

/-! ## C9: structure of the auxiliary term documents -/

/-- A column position `terms_to_xml` can process in a data row: the cell is
`NaN` (skipped) or a string whose label cell is a string with a valid
normalised tag. -/
def goodPos (lr r : List Cell) (pos : Nat) : Bool :=
  match getCell r pos with
  | Cell.absent => true
  | Cell.str _ =>
    match getCell lr pos with
    | Cell.str l => validName (childNorm l)
    | _ => false
  | _ => false

/-- A secondary sheet `terms_to_xml` processes without raising. -/
def goodTSheet (sh : TSheet) : Bool :=
  match sh.rows with
  | [] => true
  | lr :: drs =>
    drs.all (fun r => (List.range (sheetCols sh.header sh.rows)).all (goodPos lr r))

/-- The group element expected for one data row: children exactly at the
positions whose cell is a (non-`NaN`) string, named from the label row. -/
def groupSpec (w : Nat) (lr r : List Cell) : Xml :=
  Xml.elem "p" none ((List.range w).filterMap (fun pos =>
    match getCell r pos, getCell lr pos with
    | Cell.str t, Cell.str l => some (Xml.elem (childNorm l) (some (XText.plain t)) [])
    | _, _ => none))

theorem groupCells_good (lr r : List Cell) (poss : List Nat)
    (h : ∀ pos ∈ poss, goodPos lr r pos = true) :
    groupCells lr r poss = some (poss.filterMap (fun pos =>
      match getCell r pos, getCell lr pos with
      | Cell.str t, Cell.str l => some (Xml.elem (childNorm l) (some (XText.plain t)) [])
      | _, _ => none)) := by
  induction poss with
  | nil => rfl
  | cons pos rest ih =>
    have hp := h pos (by simp)
    have ih2 := ih (fun q hq => h q (by simp [hq]))
    cases hc : getCell r pos with
    | absent => simp [groupCells, hc, Cell.isna, List.filterMap_cons, ih2]
    | str t =>
      cases hl : getCell lr pos with
      | str l =>
        have hvn : validName (childNorm l) = true := by
          simpa [goodPos, hc, hl] using hp
        simp [groupCells, hc, hl, Cell.isna, hvn, List.filterMap_cons, ih2]
      | absent => simp [goodPos, hc, hl] at hp
      | date y t2 => simp [goodPos, hc, hl] at hp
      | num n => simp [goodPos, hc, hl] at hp
    | date y t2 => simp [goodPos, hc] at hp
    | num n => simp [goodPos, hc] at hp

theorem mapMOpt_eq_map {α β : Type} {f : α → Option β} {g : α → β} (l : List α)
    (h : ∀ x ∈ l, f x = some (g x)) : mapMOpt f l = some (l.map g) := by
  induction l with
  | nil => rfl
  | cons x xs ih =>
    have hx := h x (by simp)
    have ih2 := ih (fun y hy => h y (by simp [hy]))
    simp [mapMOpt, hx, ih2]

/-- C9 counterexample: on the sheet `shC9` the child built from the label
`a*b` is named `ab` — the code strips every non-word character with
`re.sub(r'\W', '', ...)` — whereas the claimed normalisation (the root
normalisation with trailing bracket characters stripped) keeps `a*b`. -/
theorem C9_auxiliary_counterexample :
    (processSheet "AX_1" shC9).map
      (fun o => o.2.children.map (fun g => g.children.map Xml.name)) = some [["ab"]] ∧
    childNormClaimed "a*b" = "a*b" ∧
    ¬("ab" : String) = "a*b" := by
  exact ⟨by rfl, by decide, by decide⟩

/-- C9 amended: for a secondary sheet whose first column header is `h` with a
valid normalised root and whose rows are well-typed, `processSheet` writes
`base_root.xml` containing the root element named `normRoot h` with one `p`
group per data row after the first (label) row, each group holding one child
per non-absent cell of its row, named from the label row by the code's child
normalisation (before-colon text, lowercased, every `>` removed, trimmed,
spaces to underscores, remaining non-word characters stripped) and populated
with the cell's text. -/
theorem C9_auxiliary_amended (base : String) (sh : TSheet) (h : String)
    (h1 : headerFirst sh = some h) (h2 : validName (normRoot h) = true)
    (h3 : goodTSheet sh = true) :
    (sh.rows = [] → processSheet base sh =
      some (base ++ "_" ++ normRoot h ++ ".xml", Xml.elem (normRoot h) none [])) ∧
    (∀ lr drs, sh.rows = lr :: drs →
      processSheet base sh = some (base ++ "_" ++ normRoot h ++ ".xml",
        Xml.elem (normRoot h) none
          (drs.map (groupSpec (sheetCols sh.header sh.rows) lr)))) := by
  constructor
  · intro hr
    simp [processSheet, h1, terms_to_xml, h2, hr]
  · intro lr drs hr
    obtain ⟨hd, rows⟩ := sh
    change rows = lr :: drs at hr
    subst hr
    have h3' : drs.all
        (fun r => (List.range (sheetCols hd (lr :: drs))).all (goodPos lr r)) = true := h3
    have hall : ∀ r ∈ drs, ∀ pos ∈ List.range (sheetCols hd (lr :: drs)),
        goodPos lr r pos = true := by
      rw [List.all_eq_true] at h3'
      intro r hrr
      have h4 := h3' r hrr
      rw [List.all_eq_true] at h4
      exact h4
    have hmap : mapMOpt (groupOf (sheetCols hd (lr :: drs)) lr) drs =
        some (drs.map (groupSpec (sheetCols hd (lr :: drs)) lr)) := by
      refine mapMOpt_eq_map drs ?_
      intro r hrr
      rw [groupOf, groupCells_good lr r _ (hall r hrr)]
      rfl
    simp [processSheet, h1, terms_to_xml, h2, hmap]

/-- Witness for the amended C9 on the sheet `shTermsGood`: two groups, one
child each, named `term` and `place_name`, only for the non-absent cells. -/
theorem C9_auxiliary_amended_witness :
    processSheet "AX_1" shTermsGood = some ("AX_1_terms.xml",
      Xml.elem "terms" none
        [Xml.elem "p" none [Xml.elem "term" (some (XText.plain "alpha")) []],
         Xml.elem "p" none [Xml.elem "place_name" (some (XText.plain "beta")) []]]) := by
  have h := (C9_auxiliary_amended "AX_1" shTermsGood "TERMS: misc" rfl (by decide)
    (by decide)).2
    [Cell.str "Term", Cell.str "Place name"]
    [[Cell.str "alpha", Cell.absent], [Cell.absent, Cell.str "beta"]] rfl
  exact h.trans (by rfl)

/-! ## Sequence store and intake: C3 and C6 -/

/-- The counter currently stored for a sender (0 when no section or no
`sequence` option exists, so that the next sequence number is `cnt + 1`). -/
def cnt (cfg : Config) (s : String) : Nat :=
  match lookupA cfg.senders s with
  | none => 0
  | some sc => sc.sequence.getD 0

theorem lookupA_setSeq_self (l : List (String × SenderCfg)) (s : String) (n : Nat)
    (sc : SenderCfg) (h : lookupA l s = some sc) :
    lookupA (setSeq l s n) s = some { sc with sequence := some n } := by
  induction l with
  | nil => cases h
  | cons kv rest ih =>
    obtain ⟨k, v⟩ := kv
    by_cases hk : (k == s) = true
    · simp only [lookupA, hk, if_true, Option.some_inj] at h
      subst h
      simp [setSeq, lookupA, hk]
    · simp only [lookupA, hk, if_false, Bool.false_eq_true] at h
      simp [setSeq, lookupA, hk, ih h]

theorem lookupA_setSeq_other (l : List (String × SenderCfg)) (s k : String) (n : Nat)
    (hk : k ≠ s) : lookupA (setSeq l s n) k = lookupA l k := by
  induction l with
  | nil => rfl
  | cons kv rest ih =>
    obtain ⟨k', v⟩ := kv
    by_cases h1 : (k' == s) = true
    · have : k' = s := by simpa using h1
      subst this
      have h2 : (k' == k) = false := by
        simp only [beq_eq_false_iff_ne, ne_eq]
        exact fun he => hk he.symm
      simp [setSeq, lookupA, h1, h2]
    · by_cases h2 : (k' == k) = true
      · simp [setSeq, lookupA, h1, h2]
      · simp [setSeq, lookupA, h1, h2, ih]

theorem cnt_update_self (cfg : Config) (s : String) (n : Nat) (sc : SenderCfg)
    (h : lookupA cfg.senders s = some sc) : cnt (update_sequence cfg s n) s = n := by
  simp [cnt, update_sequence, lookupA_setSeq_self _ _ _ _ h]

theorem cnt_update_other (cfg : Config) (s k : String) (n : Nat) (hk : k ≠ s) :
    cnt (update_sequence cfg s n) k = cnt cfg k := by
  simp [cnt, update_sequence, lookupA_setSeq_other _ _ _ _ hk]

theorem seqsFor_append (s : String) (a b : List (String × Nat)) :
    seqsFor s (a ++ b) = seqsFor s a ++ seqsFor s b := by
  simp [seqsFor, List.filterMap_append]

/-- Invariant of the intake fold: per sender, the logged sequence numbers are
strictly increasing and bounded by the stored counter. -/
def intakeInv (st : IntakeState) : Prop :=
  ∀ s, List.Pairwise (· < ·) (seqsFor s st.seqLog) ∧
    ∀ x ∈ seqsFor s st.seqLog, x ≤ cnt st.cfg s

theorem save_attachment_seq (sb : String) (c : Config) (sender : String)
    (seq : Nat) (fn : String) (hs : save_attachment sb c sender = some (seq, fn)) :
    (∃ sc, lookupA c.senders sender = some sc) ∧ seq = cnt c sender + 1 := by
  unfold save_attachment at hs
  cases hl : lookupA c.senders sender with
  | none => rw [hl] at hs; cases hs
  | some sc =>
    rw [hl] at hs
    simp only [Option.map_some', Option.some_inj] at hs
    refine ⟨⟨sc, rfl⟩, ?_⟩
    have hseq := congrArg Prod.fst hs
    simp only at hseq
    rw [← hseq]
    cases hq : sc.sequence <;> simp [cnt, hl, hq]

theorem intakePart_inv (sb sender p : String) (st : IntakeState) (h : intakeInv st) :
    intakeInv (intakePart sb sender st p) := by
  unfold intakePart
  by_cases hp : (p == "") = true
  · simpa [hp] using h
  · simp only [hp, Bool.false_eq_true, if_false]
    cases hs : save_attachment sb st.cfg sender with
    | none => exact h
    | some pr =>
      obtain ⟨seq, fn⟩ := pr
      obtain ⟨⟨sc, hsc⟩, hseq⟩ := save_attachment_seq sb st.cfg sender seq fn hs
      intro s
      simp only [seqsFor_append]
      by_cases hss : s = sender
      · subst hss
        have hone : seqsFor s [(s, seq)] = [seq] := by simp [seqsFor]
        rw [hone]
        have hcnt : cnt (update_sequence st.cfg s seq) s = seq :=
          cnt_update_self st.cfg s seq sc hsc
        constructor
        · rw [List.pairwise_append]
          refine ⟨(h s).1, by simp, ?_⟩
          intro x hx y hy
          simp only [List.mem_singleton] at hy
          subst hy
          have := (h s).2 x hx
          omega
        · intro x hx
          rcases List.mem_append.mp hx with hx1 | hx1
          · have := (h s).2 x hx1
            rw [hcnt]
            omega
          · simp only [List.mem_singleton] at hx1
            subst hx1
            rw [hcnt]
      · have hone : seqsFor s [(sender, seq)] = [] := by
          simp only [seqsFor, List.filterMap_cons, List.filterMap_nil]
          rw [if_neg]
          simp only [beq_iff_eq]
          exact fun he => hss he.symm
        rw [hone, List.append_nil]
        have hcnt : cnt (update_sequence st.cfg sender seq) s = cnt st.cfg s :=
          cnt_update_other st.cfg sender s seq hss
        exact ⟨(h s).1, fun x hx => by rw [hcnt]; exact (h s).2 x hx⟩

theorem foldParts_inv (sb sender : String) (ps : List String) (st : IntakeState)
    (h : intakeInv st) : intakeInv (ps.foldl (intakePart sb sender) st) := by
  induction ps generalizing st with
  | nil => exact h
  | cons p ps ih => exact ih _ (intakePart_inv sb sender p st h)

theorem intakeMsg_inv (sb : String) (st : IntakeState) (m : Msg) (h : intakeInv st) :
    intakeInv (intakeMsg sb st m) := by
  unfold intakeMsg
  by_cases hk : is_email_address_known st.cfg (stripAngles m.returnPath) = true
  · simp only [hk, if_true]
    exact foldParts_inv sb _ m.parts st h
  · simp only [hk, if_false]
    simpa [hk] using h

theorem foldMsgs_inv (sb : String) (ms : List Msg) (st : IntakeState) (h : intakeInv st) :
    intakeInv (ms.foldl (intakeMsg sb) st) := by
  induction ms generalizing st with
  | nil => exact h
  | cons m ms ih => exact ih _ (intakeMsg_inv sb st m h)

theorem intakePart_shift (sb sender p : String) (c : Config)
    (A : List String) (B : List (String × String)) (L : List (String × Nat)) :
    intakePart sb sender ⟨c, A, B, L⟩ p =
      { cfg := (intakePart sb sender ⟨c, [], [], []⟩ p).cfg,
        staged := A ++ (intakePart sb sender ⟨c, [], [], []⟩ p).staged,
        atts := B ++ (intakePart sb sender ⟨c, [], [], []⟩ p).atts,
        seqLog := L ++ (intakePart sb sender ⟨c, [], [], []⟩ p).seqLog } := by
  unfold intakePart
  by_cases hp : (p == "") = true
  · simp [hp]
  · cases hs : save_attachment sb c sender with
    | none => simp [hp, hs]
    | some pr =>
      obtain ⟨seq, fn⟩ := pr
      simp [hp, hs]

theorem foldParts_shift (sb sender : String) (ps : List String) :
    ∀ (c : Config) (A : List String) (B : List (String × String)) (L : List (String × Nat)),
    ps.foldl (intakePart sb sender) ⟨c, A, B, L⟩ =
      { cfg := (ps.foldl (intakePart sb sender) ⟨c, [], [], []⟩).cfg,
        staged := A ++ (ps.foldl (intakePart sb sender) ⟨c, [], [], []⟩).staged,
        atts := B ++ (ps.foldl (intakePart sb sender) ⟨c, [], [], []⟩).atts,
        seqLog := L ++ (ps.foldl (intakePart sb sender) ⟨c, [], [], []⟩).seqLog } := by
  induction ps with
  | nil => intro c A B L; simp
  | cons p ps ih =>
    intro c A B L
    simp only [List.foldl_cons]
    rcases hst : intakePart sb sender ⟨c, [], [], []⟩ p with ⟨c1, S, T, U⟩
    rw [intakePart_shift sb sender p c A B L, hst]
    simp only
    rw [ih c1 (A ++ S) (B ++ T) (L ++ U), ih c1 S T U]
    simp [List.append_assoc]

theorem intakeMsg_shift (sb : String) (m : Msg) (c : Config)
    (A : List String) (B : List (String × String)) (L : List (String × Nat)) :
    intakeMsg sb ⟨c, A, B, L⟩ m =
      { cfg := (intakeMsg sb ⟨c, [], [], []⟩ m).cfg,
        staged := A ++ (intakeMsg sb ⟨c, [], [], []⟩ m).staged,
        atts := B ++ (intakeMsg sb ⟨c, [], [], []⟩ m).atts,
        seqLog := L ++ (intakeMsg sb ⟨c, [], [], []⟩ m).seqLog } := by
  unfold intakeMsg
  by_cases hk : is_email_address_known c (stripAngles m.returnPath) = true
  · simp only [hk, if_true]
    exact foldParts_shift sb _ m.parts c A B L
  · simp [hk]

theorem foldMsgs_shift (sb : String) (ms : List Msg) :
    ∀ (c : Config) (A : List String) (B : List (String × String)) (L : List (String × Nat)),
    ms.foldl (intakeMsg sb) ⟨c, A, B, L⟩ =
      { cfg := (ms.foldl (intakeMsg sb) ⟨c, [], [], []⟩).cfg,
        staged := A ++ (ms.foldl (intakeMsg sb) ⟨c, [], [], []⟩).staged,
        atts := B ++ (ms.foldl (intakeMsg sb) ⟨c, [], [], []⟩).atts,
        seqLog := L ++ (ms.foldl (intakeMsg sb) ⟨c, [], [], []⟩).seqLog } := by
  induction ms with
  | nil => intro c A B L; simp
  | cons m ms ih =>
    intro c A B L
    simp only [List.foldl_cons]
    rcases hst : intakeMsg sb ⟨c, [], [], []⟩ m with ⟨c1, S, T, U⟩
    rw [intakeMsg_shift sb m c A B L, hst]
    simp only
    rw [ih c1 S T U, ih c1 (A ++ S) (B ++ T) (L ++ U)]
    simp [List.append_assoc]

theorem intakeRuns_bound (sb : String) (runs : List (List Msg)) :
    ∀ (c : Config) (L : List (String × Nat)),
    (∀ s, List.Pairwise (· < ·) (seqsFor s L) ∧ ∀ x ∈ seqsFor s L, x ≤ cnt c s) →
    ∀ s, List.Pairwise (· < ·) (seqsFor s (L ++ (intakeRuns sb c runs).2)) ∧
      ∀ x ∈ seqsFor s (L ++ (intakeRuns sb c runs).2), x ≤ cnt (intakeRuns sb c runs).1 s := by
  induction runs with
  | nil =>
    intro c L h s
    simpa [intakeRuns] using h s
  | cons msgs rest ih =>
    intro c L h s
    have hinv0 : intakeInv ⟨c, [], [], L⟩ := fun s' => h s'
    have hinv := foldMsgs_inv sb msgs ⟨c, [], [], L⟩ hinv0
    rw [foldMsgs_shift sb msgs c [] [] L] at hinv
    have hrec := ih (msgs.foldl (intakeMsg sb) ⟨c, [], [], []⟩).cfg
      (L ++ (msgs.foldl (intakeMsg sb) ⟨c, [], [], []⟩).seqLog) (fun s' => hinv s') s
    simp only [intakeRuns, get_data_from_mailbox]
    rw [← List.append_assoc]
    exact hrec

/-- C6: (a) a message from a sender without a registry section leaves the
intake state unchanged — no file staged, no sequence advanced, no attachment
recorded (and intake sends no notifications by construction); (b) across any
series of crash-free runs, the sequence numbers used for a given sender are
strictly increasing, so none is ever reused. -/
theorem C6_intake :
    (∀ (sb : String) (st : IntakeState) (m : Msg),
      is_email_address_known st.cfg (stripAngles m.returnPath) = false →
      intakeMsg sb st m = st) ∧
    (∀ (sb : String) (cfg : Config) (runs : List (List Msg)) (s : String),
      List.Pairwise (· < ·) (seqsFor s (intakeRuns sb cfg runs).2)) := by
  constructor
  · intro sb st m hk
    simp [intakeMsg, hk]
  · intro sb cfg runs s
    have h := intakeRuns_bound sb runs cfg [] (fun s' => by simp [seqsFor]) s
    simpa using h.1

/-- Witness for C6: an unknown sender's message is a no-op on a concrete
state, and two runs with three saved attachments for `a@x.org` use the
strictly increasing sequence numbers 1, 2, 3. -/
theorem C6_intake_witness :
    intakeMsg "sandbox" ⟨cfgA, [], [], []⟩ ⟨"<z@unknown.com>", ["data"]⟩ =
      ⟨cfgA, [], [], []⟩ ∧
    seqsFor "a@x.org"
      (intakeRuns "sandbox" cfgA
        [[⟨"<a@x.org>", ["d1", "", "d2"]⟩], [⟨"<a@x.org>", ["d3"]⟩]]).2 = [1, 2, 3] := by
  exact ⟨C6_intake.1 "sandbox" ⟨cfgA, [], [], []⟩ ⟨"<z@unknown.com>", ["data"]⟩ (by decide),
    by decide⟩

/-- C3 counterexample: with a prior counter of 5 (so the next number should be
6 and `update_sequence` rewrites the file with 6), a crash after `open(..,'w')`
truncated the file and only the section header and code line were written
leaves a state from which the next run silently restarts at sequence 1 < 6 —
the rewrite is a plain truncate-and-write, not an atomic write-then-rename. -/
theorem C3_sequence_counterexample :
    (configLines 6).take 2 ∈ update_sequence_states 6 ∧
    storedSeq ((configLines 6).take 2) = none ∧
    recoverNext ((configLines 6).take 2) = some 1 ∧
    recoverNext (configLines 5) = some 6 ∧ (1 : Nat) < 6 := by
  exact ⟨by decide, rfl, rfl, rfl, by decide⟩

/-- C3 amended: `next` returns the stored counter + 1 (1 when no counter is
stored) and persists the new value by rewriting the configuration file in
place before the next attachment is handled; the completed write stores the
new counter, but the write is a truncate-and-rewrite, not an atomic
write-then-rename, so a crash mid-write can lose the counter (see the
counterexample). -/
theorem C3_sequence_amended (sb : String) (cfg : Config) (address : String)
    (sc : SenderCfg) (h : lookupA cfg.senders address = some sc) :
    (sc.sequence = none → (save_attachment sb cfg address).map Prod.fst = some 1) ∧
    (∀ n, sc.sequence = some n →
      (save_attachment sb cfg address).map Prod.fst = some (n + 1)) ∧
    (∀ seq, lookupA (update_sequence cfg address seq).senders address =
      some { sc with sequence := some seq }) ∧
    (∀ seq, configLines seq ∈ update_sequence_states seq ∧
      storedSeq (configLines seq) = some seq ∧
      recoverNext (configLines seq) = some (seq + 1)) := by
  refine ⟨?_, ?_, ?_, ?_⟩
  · intro hn
    simp [save_attachment, h, hn]
  · intro n hn
    simp [save_attachment, h, hn]
  · intro seq
    simp only [update_sequence]
    exact lookupA_setSeq_self cfg.senders address seq sc h
  · intro seq
    refine ⟨?_, rfl, rfl⟩
    refine List.mem_map.mpr ⟨3, ?_, rfl⟩
    simp [configLines]

/-- Witness for the amended C3: on `cfgA` (no stored counter) the first
sequence number is 1 and the update persists it in the registry. -/
theorem C3_sequence_amended_witness :
    (save_attachment "sandbox" cfgA "a@x.org").map Prod.fst = some 1 ∧
    lookupA (update_sequence cfgA "a@x.org" 1).senders "a@x.org" =
      some ⟨"AX", some 1, some "en"⟩ := by
  have h := C3_sequence_amended "sandbox" cfgA "a@x.org" ⟨"AX", none, some "en"⟩ rfl
  exact ⟨h.1 rfl, (h.2.2.1 1).trans (by rfl)⟩

/-! ## Orchestrator fold lemmas and the C1/C2 claims -/

theorem fold_not_completed (sb : String) (cfg : Config) (att : List (String × String))
    (staging : List (String × Workbook)) :
    ∀ acc : RunOut, acc.completed = false →
    staging.foldl (runStep sb cfg att) acc =
      { acc with locs := acc.locs ++ staging.map (fun f => (f.1, Loc.stayed)) } := by
  induction staging with
  | nil => intro acc h; simp
  | cons f fs ih =>
    intro acc h
    simp only [List.foldl_cons]
    have hstep : runStep sb cfg att acc f =
        { acc with locs := acc.locs ++ [(f.1, Loc.stayed)] } := by
      simp [runStep, h]
    rw [hstep, ih _ (by simpa using h)]
    simp

theorem runStep_locs (sb : String) (cfg : Config) (att : List (String × String))
    (acc : RunOut) (f : String × Workbook) (hacc : acc.completed = true)
    (hc : (runStep sb cfg att acc f).completed = true) :
    (runStep sb cfg att acc f).locs = acc.locs ++ [(f.1, fileLoc sb cfg att f)] := by
  by_cases hx : ext_is_xlsx f.1 = false
  · simp [runStep, fileLoc, hacc, hx]
  · cases hl : lookupA att (joinPath sb f.1) with
    | none => simp [runStep, fileLoc, hacc, hx, hl]
    | some email =>
      cases hp : pipelineFile cfg email f.2 f.1 with
      | toError outs ns => simp [runStep, fileLoc, hacc, hx, hl, hp]
      | toSuccess outs ns => simp [runStep, fileLoc, hacc, hx, hl, hp]
      | abortError outs ns =>
        exfalso
        simp [runStep, hacc, hx, hl, hp] at hc
      | abortSuccess outs ns =>
        exfalso
        simp [runStep, hacc, hx, hl, hp] at hc

theorem fold_locs (sb : String) (cfg : Config) (att : List (String × String))
    (staging : List (String × Workbook)) :
    ∀ acc : RunOut, acc.completed = true →
    (staging.foldl (runStep sb cfg att) acc).completed = true →
    (staging.foldl (runStep sb cfg att) acc).locs =
      acc.locs ++ staging.map (fun f => (f.1, fileLoc sb cfg att f)) := by
  induction staging with
  | nil => intro acc h1 h2; simp
  | cons f fs ih =>
    intro acc h1 h2
    simp only [List.foldl_cons] at h2 ⊢
    have hstep : (runStep sb cfg att acc f).completed = true := by
      cases hcc : (runStep sb cfg att acc f).completed with
      | true => rfl
      | false =>
        rw [fold_not_completed sb cfg att fs _ hcc] at h2
        simpa [hcc] using h2
    rw [ih _ hstep h2, runStep_locs sb cfg att acc f h1 hstep]
    simp

/-- C1 counterexample: a staged `.xlsx` file that no sender owns (it is not in
the run's `attachments` map) is skipped with a warning by the loop body
(`continue`) and is still in the staging area afterwards — it is neither
error-routed nor deleted, contradicting both "no file is ever left in
staging" and "routed to error-equivalent handling". -/
theorem C1_staging_counterexample :
    ext_is_xlsx "GH_9.xlsx" = true ∧
    attA.isEmpty = false ∧
    (process_attachments "sandbox" cfgA attA
      [("GH_9.xlsx", (⟨none, []⟩ : Workbook))]).locs = [("GH_9.xlsx", Loc.stayed)] := by
  exact ⟨by decide, by decide, by decide⟩

/-- C1 amended: provided the run completes (no notification failure aborted
the loop), every staged file ends at the location `fileLoc` assigns it; a
`.xlsx` file that the attachments map associates with a sender always leaves
staging (to the error or success area), while a file without a known owning
sender is skipped with a warning and left in staging (not deleted). -/
theorem C1_staging_amended (sb : String) (cfg : Config) (att : List (String × String))
    (staging : List (String × Workbook))
    (hc : (process_attachments sb cfg att staging).completed = true) :
    (process_attachments sb cfg att staging).locs =
      staging.map (fun f => (f.1, fileLoc sb cfg att f)) ∧
    (∀ f : String × Workbook, ext_is_xlsx f.1 = true →
      (lookupA att (joinPath sb f.1)).isSome = true →
      ¬fileLoc sb cfg att f = Loc.stayed) ∧
    (∀ f : String × Workbook, (lookupA att (joinPath sb f.1)).isSome = false →
      fileLoc sb cfg att f = Loc.stayed) := by
  refine ⟨?_, ?_, ?_⟩
  · by_cases hA : att.isEmpty = true
    · have hnil : att = [] := List.isEmpty_iff.mp hA
      subst hnil
      simp only [process_attachments, List.isEmpty_nil, if_true]
      refine List.map_congr_left ?_
      intro f _
      by_cases hx : ext_is_xlsx f.1 = false <;> simp [fileLoc, hx, lookupA]
    · have hA' : att.isEmpty = false := by
        cases h2 : att.isEmpty with
        | true => exact absurd h2 hA
        | false => rfl
      unfold process_attachments at hc ⊢
      simp only [hA', Bool.false_eq_true, if_false] at hc ⊢
      simpa using fold_locs sb cfg att staging ⟨[], [], [], true⟩ rfl hc
  · intro f hx hl
    cases hls : lookupA att (joinPath sb f.1) with
    | none => rw [hls] at hl; simp at hl
    | some email =>
      cases hp : pipelineFile cfg email f.2 f.1 <;> simp [fileLoc, hx, hls, hp]
  · intro f hl
    cases hls : lookupA att (joinPath sb f.1) with
    | some email => rw [hls] at hl; simp at hl
    | none => by_cases hx : ext_is_xlsx f.1 = false <;> simp [fileLoc, hx, hls]

/-- Witness for the amended C1: a completed run over one owned file (which is
processed and moved to success) and one unowned file (which stays). -/
theorem C1_staging_amended_witness :
    (process_attachments "sandbox" cfgA attA
      [("AX_1.xlsx", wbGood), ("GH_9.xlsx", (⟨none, []⟩ : Workbook))]).locs =
      [("AX_1.xlsx", Loc.success), ("GH_9.xlsx", Loc.stayed)] := by
  have h := C1_staging_amended "sandbox" cfgA attA
    [("AX_1.xlsx", wbGood), ("GH_9.xlsx", (⟨none, []⟩ : Workbook))] (by decide)
  exact h.1.trans (by decide)

theorem runStep_shift (sb : String) (cfg : Config) (att : List (String × String))
    (f : String × Workbook) (l : List (String × Loc)) (o : List (String × Xml))
    (n : List Notif) :
    runStep sb cfg att ⟨l, o, n, true⟩ f =
      { locs := l ++ (runStep sb cfg att ⟨[], [], [], true⟩ f).locs,
        output := o ++ (runStep sb cfg att ⟨[], [], [], true⟩ f).output,
        notifs := n ++ (runStep sb cfg att ⟨[], [], [], true⟩ f).notifs,
        completed := (runStep sb cfg att ⟨[], [], [], true⟩ f).completed } := by
  by_cases hx : ext_is_xlsx f.1 = false
  · simp [runStep, hx]
  · cases hl : lookupA att (joinPath sb f.1) with
    | none => simp [runStep, hx, hl]
    | some email =>
      cases hp : pipelineFile cfg email f.2 f.1 <;> simp [runStep, hx, hl, hp]

theorem fold_shift (sb : String) (cfg : Config) (att : List (String × String))
    (staging : List (String × Workbook)) :
    ∀ (l : List (String × Loc)) (o : List (String × Xml)) (n : List Notif),
    staging.foldl (runStep sb cfg att) ⟨l, o, n, true⟩ =
      { locs := l ++ (staging.foldl (runStep sb cfg att) ⟨[], [], [], true⟩).locs,
        output := o ++ (staging.foldl (runStep sb cfg att) ⟨[], [], [], true⟩).output,
        notifs := n ++ (staging.foldl (runStep sb cfg att) ⟨[], [], [], true⟩).notifs,
        completed := (staging.foldl (runStep sb cfg att) ⟨[], [], [], true⟩).completed } := by
  induction staging with
  | nil => intro l o n; simp
  | cons f fs ih =>
    intro l o n
    simp only [List.foldl_cons]
    rcases hst : runStep sb cfg att ⟨[], [], [], true⟩ f with ⟨l1, o1, n1, c1⟩
    rw [runStep_shift sb cfg att f l o n, hst]
    simp only
    cases c1 with
    | true =>
      rw [ih (l ++ l1) (o ++ o1) (n ++ n1), ih l1 o1 n1]
      simp [List.append_assoc]
    | false =>
      rw [fold_not_completed sb cfg att fs ⟨l ++ l1, o ++ o1, n ++ n1, false⟩ rfl,
        fold_not_completed sb cfg att fs ⟨l1, o1, n1, false⟩ rfl]
      simp [List.append_assoc]

/-- C2 counterexample: the staged file `AX_1.xlsx` has a valid primary sheet
but its secondary sheet makes `process_terms` raise AFTER `process_collection`
already wrote the primary document.  The per-file handler moves the file to
the error area, yet `AX_1.xml` remains in the output area — a partial output
for an error-routed file. -/
theorem C2_failure_counterexample :
    (process_attachments "sandbox" cfgA attA [("AX_1.xlsx", wbTermFail)]).locs =
      [("AX_1.xlsx", Loc.error)] ∧
    (process_attachments "sandbox" cfgA attA
      [("AX_1.xlsx", wbTermFail)]).output.map Prod.fst = ["AX_1.xml"] := by
  exact ⟨by decide, by decide⟩

/-- C2 amended: an unexpected error in a file's extract/validate/build
sequence is caught at the file granularity — the file is moved to the error
area and the remaining staged files are processed exactly as they would
otherwise be — but (i) the documents already written for that file before the
error remain in the output area, and (ii) an error raised after the file was
moved to success (a success-notification failure) makes the handler's own
move raise, aborting the loop so that all remaining staged files stay in
staging. -/
theorem C2_failure_amended (sb : String) (cfg : Config) (att : List (String × String))
    (f : String × Workbook) (staging : List (String × Workbook)) (email : String)
    (outs : List (String × Xml)) (ns : List Notif)
    (hA : att.isEmpty = false)
    (h1 : ext_is_xlsx f.1 = true)
    (h2 : lookupA att (joinPath sb f.1) = some email)
    (h3 : pipelineFile cfg email f.2 f.1 = StepRes.toError outs ns) :
    ((process_attachments sb cfg att (f :: staging)).locs =
      (f.1, Loc.error) :: (process_attachments sb cfg att staging).locs ∧
    (process_attachments sb cfg att (f :: staging)).output =
      outs ++ (process_attachments sb cfg att staging).output ∧
    (process_attachments sb cfg att (f :: staging)).notifs =
      ns ++ (process_attachments sb cfg att staging).notifs ∧
    (process_attachments sb cfg att (f :: staging)).completed =
      (process_attachments sb cfg att staging).completed) ∧
    (∀ (g : String × Workbook) (gs : List (String × Workbook)) (email2 : String)
      (outs2 : List (String × Xml)) (ns2 : List Notif),
      ext_is_xlsx g.1 = true → lookupA att (joinPath sb g.1) = some email2 →
      pipelineFile cfg email2 g.2 g.1 = StepRes.abortSuccess outs2 ns2 →
      (process_attachments sb cfg att (g :: gs)).locs =
        (g.1, Loc.success) :: gs.map (fun x => (x.1, Loc.stayed)) ∧
      (process_attachments sb cfg att (g :: gs)).completed = false) := by
  constructor
  · have hstep : runStep sb cfg att ⟨[], [], [], true⟩ f =
        ⟨[(f.1, Loc.error)], outs, ns, true⟩ := by
      simp [runStep, h1, h2, h3]
    unfold process_attachments
    simp only [hA, Bool.false_eq_true, if_false, List.foldl_cons]
    rw [hstep, fold_shift sb cfg att staging [(f.1, Loc.error)] outs ns]
    refine ⟨by simp, by simp, by simp, by simp⟩
  · intro g gs email2 outs2 ns2 hx2 hl2 hp2
    have hstep : runStep sb cfg att ⟨[], [], [], true⟩ g =
        ⟨[(g.1, Loc.success)], outs2, ns2, false⟩ := by
      simp [runStep, hx2, hl2, hp2]
    unfold process_attachments
    simp only [hA, Bool.false_eq_true, if_false, List.foldl_cons]
    rw [hstep, fold_not_completed sb cfg att gs ⟨[(g.1, Loc.success)], outs2, ns2, false⟩ rfl]
    simp

/-- Witness for the amended C2: the failing file `AX_1.xlsx` goes to error and
leaves its primary document behind, while the next file `AX_2.xlsx` is still
processed to success. -/
theorem C2_failure_amended_witness :
    (process_attachments "sandbox" cfgA attAB
      [("AX_1.xlsx", wbTermFail), ("AX_2.xlsx", wbGood)]).locs =
      [("AX_1.xlsx", Loc.error), ("AX_2.xlsx", Loc.success)] ∧
    (process_attachments "sandbox" cfgA attAB
      [("AX_1.xlsx", wbTermFail), ("AX_2.xlsx", wbGood)]).output.map Prod.fst =
      ["AX_1.xml", "AX_2.xml"] := by
  have h := C2_failure_amended "sandbox" cfgA attAB ("AX_1.xlsx", wbTermFail)
    [("AX_2.xlsx", wbGood)] "a@x.org"
    [("AX_1.xml", Xml.elem "collection" none
      [Xml.elem "title" none [Xml.elem "p" (some (XText.plain "My Archive")) []]])] []
    (by decide) (by decide) (by rfl) (by rfl)
  constructor
  · exact h.1.1.trans (by decide)
  · have h2 := congrArg (List.map Prod.fst) h.1.2.1
    exact h2.trans (by decide)

end FindingAfrica
